import Mathlib

/-!
Shallow embedding of src/main.rs of the bc1q vanity address generator.

Rust strings are modelled as lists of Unicode scalar values (Rust str is a
sequence of chars addressed by UTF-8 byte offsets), so byte-based operations
of the source (str::len, byte slicing) are modelled explicitly over the
UTF-8 byte sizes of the characters.
-/

/-- UTF-8 byte length of a string, modelling Rust str::len as used at
src/main.rs line 75 (address.len). -/
def byteLen (s : List Char) : Nat := (s.map Char.utf8Size).sum

/-- Byte-based slicing, modelling the Rust expression address[n..] at
src/main.rs line 80: characters are dropped while a byte budget counts down;
the result is none when the budget runs out in the middle of a character or
past the end of the string, which models the Rust panic on slicing at an
index that is not a character boundary. -/
def byteDrop : Nat → List Char → Option (List Char)
  | 0, s => some s
  | _ + 1, [] => none
  | n + 1, c :: s => if c.utf8Size ≤ n + 1 then byteDrop (n + 1 - c.utf8Size) s else none

/-- The fixed network tag, the literal "bc1q" of src/main.rs lines 75 and 80. -/
def netTag : List Char := ['b', 'c', '1', 'q']

/-- check_address (src/main.rs lines 73-90). Returns none exactly when the
byte slice address[4..] of the source would panic; otherwise some of the
Bool the Rust function returns. The guard, the prefix test on the slice
after the tag, and the optional suffix test follow the source line by line. -/
def check_address (address patArg : List Char) (sfxArg : Option (List Char)) : Option Bool :=
  if byteLen address ≤ 4 ∨ ¬ netTag.isPrefixOf address then
    some false
  else
    match byteDrop 4 address with
    | none => none
    | some rest =>
      let patHit := patArg.isPrefixOf rest
      some (match sfxArg with
        | some sfx => patHit && sfx.isSuffixOf address
        | none => patHit)

/-- Lowercasing of a string, modelling Rust String::to_lowercase as used at
src/main.rs lines 96-97. Char.toLower lowers exactly the ASCII uppercase
letters, which is where Rust's Unicode lowercasing acts on the bech32
alphabet and on ASCII patterns. -/
def lowerStr (s : List Char) : List Char := s.map Char.toLower

/-- The configured matcher of main (src/main.rs lines 96-97 together with the
call at line 138): the pattern and the optional suffix are lowercased once at
construction, the address is passed to check_address unchanged. -/
def matches_config (address patArg : List Char) (sfxArg : Option (List Char)) : Option Bool :=
  check_address address (lowerStr patArg) (sfxArg.map lowerStr)

/-- A generated candidate: private key in display form and address string, as
produced by generate_p2wpkh_address (src/main.rs lines 60-71) and consumed at
src/main.rs lines 137-145. -/
structure Candidate where
  key : List Char
  addr : List Char
deriving DecidableEq

/-- Effect of evaluating one candidate on the found slot (src/main.rs lines
138-145): when check_address passes, the slot is assigned Some(result)
unconditionally — the source takes the lock and writes without testing
whether the slot is already occupied; when the check fails the slot is left
untouched. -/
def publishIfMatched (patArg : List Char) (sfxArg : Option (List Char))
    (slot : Option (List Char × List Char)) (c : Candidate) : Option (List Char × List Char) :=
  if check_address c.addr patArg sfxArg = some true then some (c.key, c.addr) else slot

/-- The found slot after a linearized sequence of candidate evaluations across
all workers. Every write to the slot in the source goes through the code path
modelled by publishIfMatched, and the mutex on the slot linearizes the writes,
so any concurrent run corresponds to some candidate order folded here. -/
def runCandidates (patArg : List Char) (sfxArg : Option (List Char))
    (slot : Option (List Char × List Char)) (cands : List Candidate) :
    Option (List Char × List Char) :=
  cands.foldl (publishIfMatched patArg sfxArg) slot

/-- Stats (src/main.rs lines 30-34): the attempts counter. The start instant
is modelled by passing elapsed seconds explicitly where needed. -/
structure Stats where
  attempts : Nat
deriving DecidableEq

/-- Stats::increment (src/main.rs lines 44-46). -/
def Stats.increment (st : Stats) (count : Nat) : Stats := ⟨st.attempts + count⟩

/-- Stats::print (src/main.rs lines 48-57): given the elapsed whole seconds of
the run clock, emits the triple (attempts, elapsed, rate) only when
elapsed > 0, and emits nothing at elapsed = 0. The f64 rate
attempts / elapsed of the source is modelled exactly in the rationals. -/
def Stats.print (st : Stats) (elapsed : Nat) : Option (Nat × Nat × ℚ) :=
  if 0 < elapsed then some (st.attempts, elapsed, (st.attempts : ℚ) / (elapsed : ℚ)) else none

/-- Inner batch loop of a worker (src/main.rs lines 136-146): candidates are
drawn from the oracle stream (oracle i says whether the i-th candidate of
this batch matches), the loop stops at the first match. Arguments are the
index of the next candidate and the iterations remaining; the result is
(number of candidates evaluated, whether a match was found). -/
def innerBatch (oracle : Nat → Bool) : Nat → Nat → Nat × Bool
  | _, 0 => (0, false)
  | i, n + 1 =>
    if oracle i then (1, true)
    else
      let r := innerBatch oracle (i + 1) n
      (r.1 + 1, r.2)

/-- One outer-loop iteration of a worker and its stats update (src/main.rs
lines 134-152): the inner batch loop runs, possibly stopping early on a
match, and afterwards the worker calls stats.increment(batch_size) with the
full constant batch size (line 152) regardless of how many candidates the
inner loop actually evaluated. Returns the updated stats, the number of
candidates evaluated, and whether a match occurred. -/
def workerBatchStats (st : Stats) (batchSize : Nat) (oracle : Nat → Bool) :
    Stats × Nat × Bool :=
  let r := innerBatch oracle 0 batchSize
  (st.increment batchSize, r.1, r.2)

/-- Worker outer-loop skeleton (src/main.rs lines 134-165) counting how many
batches run, driven by the sequence obs of values the worker reads from
found.is_some(): observation 2k is the while condition at the loop head
(line 134) and observation 2k+1 is the explicit check after the batch
(line 163). fuel bounds the recursion; i is the index of the next
observation. -/
def batchesRun : Nat → (Nat → Bool) → Nat → Nat
  | 0, _, _ => 0
  | fuel + 1, obs, i =>
    if obs i then 0
    else 1 + (if obs (i + 1) then 0 else batchesRun fuel obs (i + 2))

/-- Effective worker count (src/main.rs lines 100-105 and 123): when
args.threads is given, main installs a global thread pool with that many
threads; rayon's ThreadPoolBuilder documents num_threads 0 as "select the
number of threads automatically" (the available hardware parallelism) and
build_global succeeds on it, so main rejects no requested count. When no
count is given the default pool with the available parallelism is used. The
spawn loop at line 123 starts one worker per thread of the resulting pool. -/
def effectiveWorkers (threadsArg : Option Nat) (available : Nat) : Nat :=
  match threadsArg with
  | none => available
  | some 0 => available
  | some (n + 1) => n + 1

/-- Dropping 4 bytes from a string that carries the 4 one-byte tag characters
in front succeeds and lands exactly after the tag, at a character boundary. -/
theorem byteDrop_tag_cons (t : List Char) :
    byteDrop 4 ('b' :: 'c' :: '1' :: 'q' :: t) = some t := by
  have hb : Char.utf8Size 'b' = 1 := by decide
  have hc : Char.utf8Size 'c' = 1 := by decide
  have h1 : Char.utf8Size '1' = 1 := by decide
  have hq : Char.utf8Size 'q' = 1 := by decide
  simp [byteDrop, hb, hc, h1, hq]

/-- On any string starting with the network tag, the byte slice at offset 4
is defined and equals the character-level drop of the 4 tag characters. -/
theorem byteDrop_of_tag (a : List Char) (h : netTag.isPrefixOf a = true) :
    byteDrop 4 a = some (a.drop 4) := by
  obtain ⟨t, ht⟩ := List.isPrefixOf_iff_prefix.mp h
  subst ht
  exact byteDrop_tag_cons t

/-- C5: the matcher fails closed: for every address that does not start with
the fixed 4-character network tag "bc1q", or whose byte length is at most the
tag length 4, check_address returns false regardless of the configured
patterns. -/
theorem c5_fails_closed (a p : List Char) (s : Option (List Char))
    (h : byteLen a ≤ 4 ∨ netTag.isPrefixOf a = false) :
    check_address a p s = some false := by
  have hc : byteLen a ≤ 4 ∨ ¬ netTag.isPrefixOf a = true := by
    rcases h with h | h
    · exact Or.inl h
    · exact Or.inr (by simp [h])
  simp only [check_address]
  rw [if_pos hc]

theorem c5_fails_closed_witness : check_address ['x', 'y', 'z'] ['a'] none = some false :=
  c5_fails_closed ['x', 'y', 'z'] ['a'] none (Or.inl (by decide))

/-- C6: for every address passing the fail-closed guard, the matcher with a
configured suffix returns exactly the conjunction of the two tests (the part
after the tag starts with the pattern, and the whole address ends with the
suffix), and without a suffix it returns the prefix test alone. -/
theorem c6_guard_passed (a p s : List Char) (h4 : 4 < byteLen a)
    (ht : netTag.isPrefixOf a = true) :
    check_address a p (some s) = some (p.isPrefixOf (a.drop 4) && s.isSuffixOf a) ∧
    check_address a p none = some (p.isPrefixOf (a.drop 4)) := by
  have hcond : ¬ (byteLen a ≤ 4 ∨ ¬ netTag.isPrefixOf a = true) := by
    push_neg
    exact ⟨by omega, ht⟩
  have hd := byteDrop_of_tag a ht
  refine ⟨?_, ?_⟩ <;>
    · simp only [check_address]
      rw [if_neg hcond, hd]

theorem c6_guard_passed_witness :
    check_address "bc1qab".data "a".data (some "b".data) =
      some (("a".data).isPrefixOf (("bc1qab".data).drop 4) &&
        ("b".data).isSuffixOf "bc1qab".data) :=
  (c6_guard_passed "bc1qab".data "a".data "b".data (by decide) (by decide)).1

/-- C10: check_address is total and never reaches the panic value none on any
input string: the byte slice at offset 4 is taken only after the guard has
established that the address starts with the 4 one-byte tag characters, so
offset 4 is always a character boundary. -/
theorem c10_no_panic (a p : List Char) (s : Option (List Char)) :
    (check_address a p s).isSome = true := by
  by_cases hcond : byteLen a ≤ 4 ∨ ¬ netTag.isPrefixOf a = true
  · simp only [check_address]
    rw [if_pos hcond]
    rfl
  · have ht : netTag.isPrefixOf a = true := by
      push_neg at hcond
      exact hcond.2
    simp only [check_address]
    rw [if_neg hcond, byteDrop_of_tag a ht]
    cases s <;> rfl

/-- C3 is refuted at a concrete input: the source lowercases only the pattern
(once, at construction) and never the address, so two addresses differing
only in letter casing get different match results under the same pattern. -/
theorem c3_counterexample :
    matches_config "bc1qa".data "a".data none = some true ∧
    matches_config "bc1qA".data "a".data none = some false := by decide

/-- C3 amended: casing of the pattern and of the suffix cannot affect the
outcome, because both are lowercased once at construction — any two pattern
specifications with equal lowercasings produce the same result on every
address; address casing, by contrast, is not normalized (see the
counterexample). -/
theorem c3_pattern_casing_irrelevant (a p1 p2 : List Char)
    (s1 s2 : Option (List Char)) (hp : lowerStr p1 = lowerStr p2)
    (hs : s1.map lowerStr = s2.map lowerStr) :
    matches_config a p1 s1 = matches_config a p2 s2 := by
  unfold matches_config
  rw [hp, hs]

theorem c3_pattern_casing_irrelevant_witness :
    matches_config "bc1qa".data "A".data none = matches_config "bc1qa".data "a".data none :=
  c3_pattern_casing_irrelevant "bc1qa".data "A".data "a".data none none (by decide) (by decide)

/-- Folding further candidates over a non-empty slot never empties it: every
write the source performs on the slot stores a Some value, and a failed check
leaves the slot untouched. -/
theorem runCandidates_isSome (patArg : List Char) (sfxArg : Option (List Char)) :
    ∀ (cands : List Candidate) (slot : Option (List Char × List Char)),
      slot.isSome = true → (runCandidates patArg sfxArg slot cands).isSome = true := by
  intro cands
  induction cands with
  | nil => intro slot h; simpa [runCandidates] using h
  | cons c cs ih =>
    intro slot h
    simp only [runCandidates, List.foldl_cons]
    apply ih
    unfold publishIfMatched
    split
    · rfl
    · exact h

/-- C1 is refuted at a concrete input: with the found slot already occupied by
one matching candidate, a later publish of another matching candidate
overwrites the stored value instead of being a no-op, because the source
assigns the slot without testing whether it is empty. -/
theorem c1_counterexample :
    runCandidates ['a'] none (some (['k', '1'], "bc1qa1".data))
        [⟨['k', '2'], "bc1qa2".data⟩] = some (['k', '2'], "bc1qa2".data) ∧
    some ((['k', '2'] : List Char), ("bc1qa2".data : List Char)) ≠
      some ((['k', '1'] : List Char), ("bc1qa1".data : List Char)) := by decide

/-- C1 amended: the found slot, once non-empty, stays non-empty through any
further candidate evaluations (it is never cleared), but a publish is an
unconditional overwrite — a matching candidate replaces whatever the slot
held, so the value that survives is the last one written, not the first. -/
theorem c1_last_write_wins (patArg : List Char) (sfxArg : Option (List Char))
    (slot : Option (List Char × List Char)) (cands : List Candidate) :
    (slot.isSome = true → (runCandidates patArg sfxArg slot cands).isSome = true) ∧
    (∀ c : Candidate, check_address c.addr patArg sfxArg = some true →
      publishIfMatched patArg sfxArg slot c = some (c.key, c.addr)) := by
  refine ⟨runCandidates_isSome patArg sfxArg cands slot, ?_⟩
  intro c hc
  simp [publishIfMatched, hc]

theorem c1_last_write_wins_witness :
    (runCandidates ['a'] none (some (['k'], "bc1qa".data)) []).isSome = true ∧
    publishIfMatched ['a'] none (some (['k'], "bc1qa".data)) ⟨['m'], "bc1qab".data⟩ =
      some (['m'], "bc1qab".data) :=
  ⟨(c1_last_write_wins ['a'] none (some (['k'], "bc1qa".data)) []).1 rfl,
   (c1_last_write_wins ['a'] none (some (['k'], "bc1qa".data)) []).2
     ⟨['m'], "bc1qab".data⟩ (by decide)⟩

/-- Every value the fold can leave in the slot either was there initially or
is the (key, address) of a candidate whose address passed check_address. -/
theorem runCandidates_matched (patArg : List Char) (sfxArg : Option (List Char)) :
    ∀ (cands : List Candidate) (slot : Option (List Char × List Char)),
      (∀ k a, slot = some (k, a) → check_address a patArg sfxArg = some true) →
      ∀ k a, runCandidates patArg sfxArg slot cands = some (k, a) →
        check_address a patArg sfxArg = some true := by
  intro cands
  induction cands with
  | nil => intro slot hslot k a h; exact hslot k a (by simpa [runCandidates] using h)
  | cons c cs ih =>
    intro slot hslot k a h
    simp only [runCandidates, List.foldl_cons] at h
    refine ih (publishIfMatched patArg sfxArg slot c) ?_ k a h
    intro k2 a2 h2
    unfold publishIfMatched at h2
    by_cases hc : check_address c.addr patArg sfxArg = some true
    · rw [if_pos hc] at h2
      injection h2 with h3
      rw [Prod.mk.injEq] at h3
      obtain ⟨rfl, rfl⟩ := h3
      exact hc
    · rw [if_neg hc] at h2
      exact hslot k2 a2 h2

/-- C7: starting from an empty slot, whenever the found slot is non-empty the
stored value is the key and address of a candidate whose address satisfied
check_address under the configured patterns; a candidate that did not match
is never stored. -/
theorem c7_stored_value_matched (patArg : List Char) (sfxArg : Option (List Char))
    (cands : List Candidate) (k a : List Char)
    (h : runCandidates patArg sfxArg none cands = some (k, a)) :
    check_address a patArg sfxArg = some true :=
  runCandidates_matched patArg sfxArg cands none (by intro k2 a2 h2; cases h2) k a h

theorem c7_stored_value_matched_witness : check_address "bc1qa".data ['a'] none = some true :=
  c7_stored_value_matched ['a'] none [⟨['k'], "bc1qa".data⟩] ['k'] "bc1qa".data (by decide)

/-- C8: the termination signal (the slot being occupied) is never unset by a
publish — a non-empty slot stays non-empty through any single candidate
evaluation — and the worker loop re-checks the signal after every batch, so
once every observation the worker makes reads the signal as set, the worker
runs at most one further batch before leaving its loop. -/
theorem c8_termination_latency :
    (∀ (patArg : List Char) (sfxArg : Option (List Char))
        (slot : Option (List Char × List Char)) (c : Candidate),
      slot.isSome = true → (publishIfMatched patArg sfxArg slot c).isSome = true) ∧
    (∀ (fuel : Nat) (obs : Nat → Bool) (i : Nat),
      (∀ j, i < j → obs j = true) → batchesRun fuel obs i ≤ 1) := by
  constructor
  · intro patArg sfxArg slot c h
    unfold publishIfMatched
    split
    · rfl
    · exact h
  · intro fuel obs i h
    cases fuel with
    | zero => simp [batchesRun]
    | succ n =>
      simp only [batchesRun]
      by_cases hi : obs i
      · simp [hi]
      · simp [hi, h (i + 1) (by omega)]

theorem c8_termination_latency_witness :
    (publishIfMatched ['a'] none (some (['k'], "bc1qa".data)) ⟨['m'], "bc1qz".data⟩).isSome =
      true ∧
    batchesRun 5 (fun _ => true) 0 ≤ 1 :=
  ⟨c8_termination_latency.1 ['a'] none (some (['k'], "bc1qa".data)) ⟨['m'], "bc1qz".data⟩ rfl,
   c8_termination_latency.2 5 (fun _ => true) 0 (fun _ _ => rfl)⟩

/-- The inner batch loop evaluates at most its iteration budget, and exactly
the full budget when no candidate in the batch matched. -/
theorem innerBatch_evaluated_le (oracle : Nat → Bool) :
    ∀ (n i : Nat), (innerBatch oracle i n).1 ≤ n ∧
      ((innerBatch oracle i n).2 = false → (innerBatch oracle i n).1 = n) := by
  intro n
  induction n with
  | zero => intro i; simp [innerBatch]
  | succ m ih =>
    intro i
    by_cases h : oracle i
    · simp [innerBatch, h]
    · obtain ⟨hm1, hm2⟩ := ih (i + 1)
      have hstep : innerBatch oracle i (m + 1) =
          ((innerBatch oracle (i + 1) m).1 + 1, (innerBatch oracle (i + 1) m).2) := by
        simp [innerBatch, h]
      rw [hstep]
      constructor
      · show (innerBatch oracle (i + 1) m).1 + 1 ≤ m + 1
        omega
      · intro hfalse
        show (innerBatch oracle (i + 1) m).1 + 1 = m + 1
        have := hm2 hfalse
        omega

/-- C2 is refuted at a concrete input: with the oracle matching on the very
first candidate, the inner loop evaluates a single candidate, yet the worker
still adds the full batch size 1000 to the attempts counter, because the
source calls stats.increment(batch_size) with the constant after every
batch. -/
theorem c2_counterexample :
    (workerBatchStats ⟨0⟩ 1000 (fun _ => true)).2.1 = 1 ∧
    (workerBatchStats ⟨0⟩ 1000 (fun _ => true)).1.attempts = 1000 := by
  constructor <;> rfl

/-- C2 amended: after every batch the worker adds the full constant batch
size to the shared counter, regardless of how many candidates the inner loop
actually evaluated; the number evaluated is at most the batch size, and it
equals the batch size exactly when no match stopped the loop early — so the
counter overcounts precisely on the worker's final, match-ending batch. -/
theorem c2_full_batch_counted (st : Stats) (batchSize : Nat) (oracle : Nat → Bool) :
    (workerBatchStats st batchSize oracle).1.attempts = st.attempts + batchSize ∧
    (workerBatchStats st batchSize oracle).2.1 ≤ batchSize ∧
    ((workerBatchStats st batchSize oracle).2.2 = false →
      (workerBatchStats st batchSize oracle).2.1 = batchSize) := by
  have h := innerBatch_evaluated_le oracle batchSize 0
  exact ⟨rfl, h.1, h.2⟩

theorem c2_full_batch_counted_witness : (workerBatchStats ⟨0⟩ 2 (fun _ => false)).2.1 = 2 :=
  (c2_full_batch_counted ⟨0⟩ 2 (fun _ => false)).2.2 rfl

/-- C4 is refuted at a concrete input: requesting zero threads is not
rejected — the thread-pool builder treats zero as automatic selection, so on
a machine with 8 available parallelism units the search runs with 8 workers,
a different, positive worker count rather than a configuration error. -/
theorem c4_counterexample :
    effectiveWorkers (some 0) 8 = 8 ∧ (8 : Nat) ≠ 0 := by decide

/-- C4 amended: a requested thread count of zero is never rejected; the pool
treats it as automatic selection, so the effective worker count equals the
available hardware parallelism — in particular it is positive whenever the
machine has any parallelism, and the run is a real search, not a no-op. -/
theorem c4_zero_threads_runs_default (available : Nat) (h : 0 < available) :
    effectiveWorkers (some 0) available = available ∧
    0 < effectiveWorkers (some 0) available :=
  ⟨rfl, h⟩

theorem c4_zero_threads_runs_default_witness :
    effectiveWorkers (some 0) 4 = 4 ∧ 0 < effectiveWorkers (some 0) 4 :=
  c4_zero_threads_runs_default 4 (by decide)

/-- C9: the stats reporter emits the line (attempts, elapsed, rate) with
rate = attempts / elapsed exactly when the elapsed whole seconds are
positive; at elapsed = 0 nothing is emitted and no division is performed. -/
theorem c9_rate_guarded (st : Stats) (elapsed : Nat) :
    (elapsed = 0 → Stats.print st elapsed = none) ∧
    (0 < elapsed →
      Stats.print st elapsed = some (st.attempts, elapsed, (st.attempts : ℚ) / (elapsed : ℚ))) := by
  constructor
  · intro h
    simp [Stats.print, h]
  · intro h
    simp only [Stats.print]
    rw [if_pos h]

theorem c9_rate_guarded_witness :
    Stats.print ⟨7⟩ 0 = none ∧ Stats.print ⟨7⟩ 2 = some (7, 2, (7 : ℚ) / (2 : ℚ)) :=
  ⟨(c9_rate_guarded ⟨7⟩ 0).1 rfl, (c9_rate_guarded ⟨7⟩ 2).2 (by decide)⟩
